import Mathlib

/-!
Verification development for the rust-ipfs-api client library.

The embedding models the streaming-response core of `src/ipfs-api/src/client.rs`
together with the collaborators it relies on (the byte-stream bridge, the
newline-delimited record decoder and the trailer header), shallowly embedded
over `List Nat` byte buffers.  External libraries (serde_json record parsing,
serde_urlencoded query serialization, the HTTP transport) are abstracted as
function parameters; `String::from_utf8` is implemented concretely as UTF-8
validation over byte lists.
-/

namespace IpfsApi

/-- A body chunk delivered by the transport: a list of bytes (each < 256). -/
abbrev Chunk := List Nat

/-- Structured error shape recognized in failure bodies, with fields
`message`, `code` and `kind` (spec §6: modelled from `response.rs`, whose
source is not part of this snapshot). -/
structure ApiError where
  message : String
  code : Nat
  kind : String
deriving DecidableEq

/-- The client error type.  Modelled from the spec: `response.rs` (not in this
snapshot) declares an error enum whose cases the spec describes as
{structured error object; freeform text; byte-decoding failure} for API
errors, plus decode errors for malformed payloads and request-build (uri /
query serialization) failures. -/
inductive Error where
  /-- server-reported structured error (`ErrorKind::Api`) -/
  | api (e : ApiError)
  /-- server-reported freeform text (`ErrorKind::Uncategorized`) -/
  | uncategorized (s : String)
  /-- body bytes were not valid UTF-8 (`FromUtf8Error`) -/
  | utf8 (bytes : List Nat)
  /-- a structured payload failed to deserialize (serde_json decode error);
  carries the offending bytes -/
  | jsonDecode (bytes : List Nat)
  /-- request construction failed (uri parse / query serialization) -/
  | uri (s : String)
deriving DecidableEq

/-- Is `b` a UTF-8 continuation byte (`0x80..0xBF`)? -/
def isCont (b : Nat) : Bool := decide (128 ≤ b ∧ b ≤ 191)

/-- Constraint on the second byte of a multi-byte UTF-8 sequence, which
depends on the leading byte (excludes overlong encodings, surrogates and
values above U+10FFFF), as validated by Rust's `String::from_utf8`. -/
def validSecond (b0 b1 : Nat) : Bool :=
  if b0 = 224 then decide (160 ≤ b1 ∧ b1 ≤ 191)
  else if b0 = 237 then decide (128 ≤ b1 ∧ b1 ≤ 159)
  else if b0 = 240 then decide (144 ≤ b1 ∧ b1 ≤ 191)
  else if b0 = 244 then decide (128 ≤ b1 ∧ b1 ≤ 143)
  else isCont b1

/-- UTF-8 decode a byte list into characters, validating exactly the
well-formed encodings accepted by Rust's `String::from_utf8`. -/
def decodeUtf8 : List Nat → Option (List Char)
  | [] => some []
  | b0 :: r1 =>
    if b0 < 128 then
      (decodeUtf8 r1).map (fun cs => Char.ofNat b0 :: cs)
    else if 194 ≤ b0 ∧ b0 ≤ 223 then
      match r1 with
      | b1 :: r2 =>
        if isCont b1 then
          (decodeUtf8 r2).map (fun cs => Char.ofNat ((b0 - 192) * 64 + (b1 - 128)) :: cs)
        else none
      | [] => none
    else if 224 ≤ b0 ∧ b0 ≤ 239 then
      match r1 with
      | b1 :: b2 :: r3 =>
        if validSecond b0 b1 ∧ isCont b2 then
          (decodeUtf8 r3).map (fun cs =>
            Char.ofNat ((b0 - 224) * 4096 + (b1 - 128) * 64 + (b2 - 128)) :: cs)
        else none
      | _ => none
    else if 240 ≤ b0 ∧ b0 ≤ 244 then
      match r1 with
      | b1 :: b2 :: b3 :: r4 =>
        if validSecond b0 b1 ∧ isCont b2 ∧ isCont b3 then
          (decodeUtf8 r4).map (fun cs =>
            Char.ofNat
              ((b0 - 240) * 262144 + (b1 - 128) * 4096 + (b2 - 128) * 64 + (b3 - 128)) :: cs)
        else none
      | _ => none
    else none

/-- `String::from_utf8` on a byte buffer: `some` of the decoded string when
the bytes are valid UTF-8, `none` otherwise. -/
def utf8ToString (bs : List Nat) : Option String :=
  (decodeUtf8 bs).map fun cs => ⟨cs⟩

/-- `IpfsClient::build_error_from_body` (client.rs:107-117): try the
structured error shape first (`serde_json::from_slice`, abstracted as `pj`),
then UTF-8 text, then surface the byte-decoding failure. -/
def build_error_from_body (pj : List Nat → Option ApiError) (chunk : List Nat) : Error :=
  match pj chunk with
  | some e => Error.api e
  | none =>
    match utf8ToString chunk with
    | some s => Error.uncategorized s
    | none => Error.utf8 chunk

/-- `IpfsClient::process_json_response` (client.rs:122-130): on status 200
parse the body as the declared success payload (`ps` abstracts
`serde_json::from_slice::<Res>`; its failure is a decode error); on any other
status build an API error from the body. -/
def process_json_response {Res : Type} (ps : List Nat → Option Res)
    (pj : List Nat → Option ApiError) (status : Nat) (chunk : List Nat) :
    Except Error Res :=
  if status = 200 then
    match ps chunk with
    | some v => Except.ok v
    | none => Except.error (Error.jsonDecode chunk)
  else
    Except.error (build_error_from_body pj chunk)

/-! ## Byte Stream Bridge

Modelled from the spec: `read.rs` (`StreamReader` and its `ReadState`) is not
part of this snapshot; spec §3 and §4.1 describe the two-state read cursor
and the `fill` operation. -/

/-- Modelled from the spec: the Read Cursor State of `read.rs`'s
`StreamReader` — either a held chunk with the count of bytes already copied
out, or no chunk held. -/
inductive ReadState where
  | ready (chunk : List Nat) (offset : Nat)
  | notReady
deriving DecidableEq

/-- Modelled from the spec: `read.rs`'s `StreamReader`, holding the read
cursor and the (pure model of the) asynchronous chunk source: the chunks not
yet polled, in delivery order. -/
structure StreamReader where
  state : ReadState
  source : List (List Nat)
deriving DecidableEq

/-- A fresh reader over a chunk source (`StreamReader::new`): no chunk held. -/
def StreamReader.new (chunks : List (List Nat)) : StreamReader :=
  ⟨ReadState.notReady, chunks⟩

/-- Copy step of `fill` on a held chunk: copy `min cap (len - offset)` bytes
starting at `offset`, advance the cursor, and drop to `notReady` when the
chunk is fully drained (spec §4.1). -/
def fillReady (c : List Nat) (off cap : Nat) : List Nat × ReadState :=
  let n := min cap (c.length - off)
  ((c.drop off).take n,
   if off + n = c.length then ReadState.notReady else ReadState.ready c (off + n))

/-- Modelled from the spec: the Bridge's `fill` operation (§4.1).  With a
held chunk, copy from it; with no chunk held, poll the source once: a new
chunk is stored as `ready (chunk, 0)` and copied from within the same call,
an exhausted source reports end-of-data (zero bytes).  Would-block and
transport failure are not modelled: the pure source always answers. -/
def fill (r : StreamReader) (cap : Nat) : List Nat × StreamReader :=
  match r.state with
  | ReadState.ready c off =>
    let p := fillReady c off cap
    (p.1, ⟨p.2, r.source⟩)
  | ReadState.notReady =>
    match r.source with
    | [] => ([], ⟨ReadState.notReady, []⟩)
    | c :: rest =>
      let p := fillReady c 0 cap
      (p.1, ⟨p.2, rest⟩)

/-- Bytes of the held chunk not yet copied to callers. -/
def ReadState.pending : ReadState → List Nat
  | ReadState.ready c off => c.drop off
  | ReadState.notReady => []

/-- All bytes the reader has yet to deliver: the held chunk's pending bytes
followed by every unpolled chunk. -/
def remaining (r : StreamReader) : List Nat :=
  r.state.pending ++ r.source.flatten

/-- The cursor invariant of spec §3: a held chunk is never fully drained
(`offset < chunk.length`); a fresh or drained cursor is `notReady`. -/
def invB (r : StreamReader) : Bool :=
  match r.state with
  | ReadState.ready c off => decide (off < c.length)
  | ReadState.notReady => true

/-- Repeated `fill` calls, one per destination-buffer capacity in `caps`;
returns the list of byte runs copied out, call by call, and the final
reader. -/
def fills (r : StreamReader) : List Nat → List (List Nat) × StreamReader
  | [] => ([], r)
  | cap :: caps =>
    let p := fill r cap
    let q := fills p.2 caps
    (p.1 :: q.1, q.2)

/-- Termination measure for draining: undelivered bytes plus unpolled
chunks. -/
def srMeasure (r : StreamReader) : Nat :=
  (remaining r).length + r.source.length

/-! ## Record Decoder

Modelled from the spec: `read.rs`'s `JsonLineDecoder` is not part of this
snapshot; spec §4.2 describes the accumulation buffer, newline framing,
terminal decode errors and the end-of-stream remainder policy. -/

/-- Split a byte sequence at every newline delimiter (byte 10): returns the
complete delimited spans (delimiter excluded) and the unterminated
remainder. -/
def splitLines : List Nat → List (List Nat) × List Nat
  | [] => ([], [])
  | b :: rest =>
    if b = 10 then ([] :: (splitLines rest).1, (splitLines rest).2)
    else
      match splitLines rest with
      | ([], r) => ([], b :: r)
      | (l :: ls, r) => ((b :: l) :: ls, r)

/-- Hand each complete span to the record parser in order; the first span
that fails to parse terminates processing with a decode error carrying that
span (spec §4.2). -/
def processLines {R : Type} (parse : List Nat → Option R) :
    List (List Nat) → List R × Option Error
  | [] => ([], none)
  | l :: ls =>
    match parse l with
    | some r =>
      let p := processLines parse ls
      (r :: p.1, p.2)
    | none => ([], some (Error.jsonDecode l))

/-- Modelled from the spec: `read.rs`'s `JsonLineDecoder` state — the Stream
Error Marker fixed at construction, the accumulation buffer of bytes not yet
consumed as a full record, the records produced so far, and the terminal
error once one occurred. -/
structure JsonLineDecoder (R : Type) where
  parse_stream_error : Bool
  buf : List Nat
  recs : List R
  err : Option Error
deriving DecidableEq

/-- `JsonLineDecoder::new(parse_stream_error)`: empty buffer, no records, no
error. -/
def JsonLineDecoder.new {R : Type} (pse : Bool) : JsonLineDecoder R :=
  ⟨pse, [], [], none⟩

/-- Feed one transport chunk to the decoder: append it to the accumulation
buffer, extract and parse every complete newline-delimited span, keep the
unterminated remainder buffered.  A parse failure records the terminal
error; once an error is recorded further chunks are ignored (the framed
stream has terminated). -/
def feedChunk {R : Type} (parse : List Nat → Option R)
    (d : JsonLineDecoder R) (c : List Nat) : JsonLineDecoder R :=
  match d.err with
  | some _ => d
  | none =>
    let p := splitLines (d.buf ++ c)
    let q := processLines parse p.1
    ⟨d.parse_stream_error, if q.2.isSome then [] else p.2, d.recs ++ q.1, q.2⟩

/-- Modelled from the spec (§4.2, §8): the terminal error built from a
non-empty unterminated remainder when the Stream Error Marker is set — the
remainder parsed as a serialized API Error. -/
def streamErrorOf (pj : List Nat → Option ApiError) (rem : List Nat) : Error :=
  match pj rem with
  | some e => Error.api e
  | none => Error.jsonDecode rem

/-- End-of-stream step of the decoder (spec §4.2): an already-recorded error
is the terminal error; otherwise a non-empty unterminated remainder is
parsed as a serialized API Error when the Stream Error Marker is set and
silently discarded when it is not. -/
def JsonLineDecoder.finish {R : Type} (pj : List Nat → Option ApiError)
    (d : JsonLineDecoder R) : List R × Option Error :=
  match d.err with
  | some e => (d.recs, some e)
  | none =>
    if d.buf = [] then (d.recs, none)
    else if d.parse_stream_error then (d.recs, some (streamErrorOf pj d.buf))
    else (d.recs, none)

/-- The full streaming decode pipeline on a finite response body: feed the
transport chunks in delivery order, then apply the end-of-stream policy.
Returns the decoded records in order and the terminal error, if any. -/
def decodeChunks {R : Type} (parse : List Nat → Option R)
    (pj : List Nat → Option ApiError) (pse : Bool)
    (chunks : List (List Nat)) : List R × Option Error :=
  JsonLineDecoder.finish pj (chunks.foldl (feedChunk parse) (JsonLineDecoder.new pse))

/-- Decoding a body delivered as one single chunk. -/
def decodeAll {R : Type} (parse : List Nat → Option R)
    (pj : List Nat → Option ApiError) (pse : Bool)
    (bytes : List Nat) : List R × Option Error :=
  JsonLineDecoder.finish pj (feedChunk parse (JsonLineDecoder.new pse) bytes)

/-! ## Trailer header and request dispatch (client.rs) -/

/-- The typed `Trailer` header's single recognized value (`header.rs`, not in
this snapshot). -/
inductive Trailer where
  | streamError
deriving DecidableEq

/-- Modelled from the spec: the sentinel trailer name whose advertisement
marks a response as possibly ending with an in-band error (spec §4.4, §6). -/
def streamErrorSentinel : String := "X-Stream-Error"

/-- Modelled from the spec: `header.rs`'s parse of the raw `Trailer` header
value into the typed header — succeeds exactly on the recognized sentinel. -/
def parseTrailerValue (v : String) : Option Trailer :=
  if v = streamErrorSentinel then some Trailer.streamError else none

/-- The Stream Error Marker computation of `request_stream_json`
(client.rs:297-308): `res.headers().get::<Trailer>()` is the raw header
value, when present, run through the typed parse; the marker is `true`
exactly when that yields the `StreamError` trailer. -/
def parse_stream_error (hdr : Option String) : Bool :=
  match hdr.bind parseTrailerValue with
  | some t =>
    match t with
    | Trailer.streamError => true
  | none => false

/-- A materialized HTTP response: status code, raw `Trailer` header value
when present, and the body as the chunk sequence the transport delivers. -/
structure HttpResponse where
  status : Nat
  trailerHeader : Option String
  body : List (List Nat)

/-- `IpfsClient::request_raw` (client.rs:150-173): when request construction
succeeded, issue it (`transport`) and concatenate the whole body
(`concat2`); when construction failed, resolve to exactly that error.  The
boolean records whether a request was issued to the transport. -/
def request_raw {Q : Type} (built : Except Error Q)
    (transport : Q → HttpResponse) :
    Except Error (Nat × List Nat) × Bool :=
  match built with
  | Except.ok r =>
    let res := transport r
    (Except.ok (res.status, res.body.flatten), true)
  | Except.error e => (Except.error e, false)

/-- `IpfsClient::request_stream` (client.rs:178-219): when construction
succeeded, issue the request; a 200 status hands the response to `process`,
any other status first concatenates the entire body and then emits the
single error built from it; when construction failed, the stream is exactly
one terminal error.  The result pairs the stream outcome (records in order,
optional terminal error) with whether a request was issued. -/
def request_stream {Q R : Type} (pj : List Nat → Option ApiError)
    (built : Except Error Q) (transport : Q → HttpResponse)
    (process : HttpResponse → List R × Option Error) :
    (List R × Option Error) × Bool :=
  match built with
  | Except.ok r =>
    let res := transport r
    (if res.status = 200 then process res
     else ([], some (build_error_from_body pj res.body.flatten)), true)
  | Except.error e => (([], some e), false)

/-- `IpfsClient::request_stream_json` (client.rs:288-315): a streaming
request whose `process` computes the Stream Error Marker from the response's
`Trailer` header once, before decoding, and runs the newline-delimited JSON
decoder over the body with it. -/
def request_stream_json {Q R : Type} (parse : List Nat → Option R)
    (pj : List Nat → Option ApiError) (built : Except Error Q)
    (transport : Q → HttpResponse) :
    (List R × Option Error) × Bool :=
  request_stream pj built transport
    (fun res => decodeChunks parse pj (parse_stream_error res.trailerHeader) res.body)

/-- `IpfsClient::build_base_path` (client.rs:70-72):
`format!("http://{}:{}/api/v0", host, port)`. -/
def build_base_path (host : String) (port : Nat) : String :=
  "http://" ++ host ++ ":" ++ toString port ++ "/api/v0"

/-- Host of `IpfsClient::default` (client.rs:64-66). -/
def defaultHost : String := "localhost"

/-- Port of `IpfsClient::default` (client.rs:64-66). -/
def defaultPort : Nat := 5001

/-- Base URI of the default client. -/
def defaultBase : String := build_base_path defaultHost defaultPort

/-- The URL dispatched by `IpfsClient::build_base_request` (client.rs:84-89):
`format!("{}{}?{}", self.base, Req::path(), serde_urlencoded::to_string(req))`
with the query string abstracted as `query`. -/
def build_request_url (base path query : String) : String :=
  base ++ path ++ "?" ++ query

/-! ## Framing lemmas -/

/-- Splitting a concatenation: the complete spans of `a ++ b` are the
complete spans of `a` followed by the spans formed from `a`'s remainder
prepended to `b`. -/
theorem splitLines_append (a b : List Nat) :
    splitLines (a ++ b) =
      ((splitLines a).1 ++ (splitLines ((splitLines a).2 ++ b)).1,
       (splitLines ((splitLines a).2 ++ b)).2) := by
  induction a with
  | nil => simp [splitLines]
  | cons x a ih =>
    by_cases hx : x = 10
    · simp [splitLines, hx, ih]
    · rcases hpa : splitLines a with ⟨_ | ⟨l, ls⟩, pa2⟩ <;>
        rcases hq : splitLines (pa2 ++ b) with ⟨_ | ⟨m, ms⟩, q2⟩ <;>
          simp [splitLines, hx, ih, hpa, hq]

/-- Parsing a concatenation of span lists: an error in the first part makes
the second part unreachable; otherwise results are concatenated. -/
theorem processLines_append {R : Type} (parse : List Nat → Option R)
    (xs ys : List (List Nat)) :
    processLines parse (xs ++ ys) =
      if (processLines parse xs).2.isSome then processLines parse xs
      else ((processLines parse xs).1 ++ (processLines parse ys).1,
            (processLines parse ys).2) := by
  induction xs with
  | nil => simp [processLines]
  | cons l ls ih =>
    cases hp : parse l with
    | none => simp [processLines, hp]
    | some r =>
      simp only [List.cons_append, processLines, hp, List.append_eq]
      rw [ih]
      cases hq : (processLines parse ls).2 <;> simp [hq]

/-- Every record produced by span processing is the successful parse of some
span. -/
theorem processLines_sound {R : Type} (parse : List Nat → Option R)
    (ls : List (List Nat)) :
    ∀ r ∈ (processLines parse ls).1, ∃ s, parse s = some r := by
  induction ls with
  | nil => simp [processLines]
  | cons l ls ih =>
    cases hp : parse l with
    | none => simp [processLines, hp]
    | some r0 =>
      simp only [processLines, hp]
      intro r hr
      rcases List.mem_cons.mp hr with h | h
      · exact ⟨l, by rw [hp, h]⟩
      · exact ih r h

/-- Once the decoder holds a terminal error, feeding more bytes changes
nothing. -/
theorem feedChunk_err {R : Type} (parse : List Nat → Option R)
    (d : JsonLineDecoder R) (c : List Nat) (e : Error) (h : d.err = some e) :
    feedChunk parse d c = d := by
  simp [feedChunk, h]

/-- Once the decoder holds a terminal error, feeding any further chunk
sequence changes nothing. -/
theorem foldl_feedChunk_err {R : Type} (parse : List Nat → Option R)
    (d : JsonLineDecoder R) (more : List (List Nat)) (e : Error)
    (h : d.err = some e) :
    List.foldl (feedChunk parse) d more = d := by
  induction more with
  | nil => rfl
  | cons c cs ih => rw [List.foldl_cons, feedChunk_err parse d c e h, ih]

/-- Feeding two chunks in sequence is feeding their concatenation: the
accumulation buffer makes record extraction independent of chunk
boundaries. -/
theorem feedChunk_append {R : Type} (parse : List Nat → Option R)
    (d : JsonLineDecoder R) (a b : List Nat) :
    feedChunk parse (feedChunk parse d a) b = feedChunk parse d (a ++ b) := by
  cases herr : d.err with
  | some e =>
    rw [feedChunk_err parse d a e herr, feedChunk_err parse d b e herr,
      feedChunk_err parse d (a ++ b) e herr]
  | none =>
    simp only [feedChunk, herr, ← List.append_assoc, splitLines_append (d.buf ++ a) b,
      processLines_append]
    cases hq : (processLines parse (splitLines (d.buf ++ a)).1).2 with
    | some e => simp [hq]
    | none => simp [hq]

/-- Folding the decoder over a chunk list after an initial chunk is one feed
of the whole concatenation. -/
theorem foldl_feedChunk_flatten {R : Type} (parse : List Nat → Option R)
    (chunks : List (List Nat)) :
    ∀ (d : JsonLineDecoder R) (a : List Nat),
      List.foldl (feedChunk parse) (feedChunk parse d a) chunks
        = feedChunk parse d (a ++ chunks.flatten) := by
  induction chunks with
  | nil => intro d a; simp
  | cons c cs ih =>
    intro d a
    rw [List.foldl_cons, feedChunk_append, ih, List.append_assoc, List.flatten_cons]

/-- Feeding an empty chunk to a fresh decoder is a no-op. -/
theorem feedChunk_new_nil {R : Type} (parse : List Nat → Option R) (pse : Bool) :
    feedChunk parse (JsonLineDecoder.new (R := R) pse) [] = JsonLineDecoder.new pse := by
  simp [feedChunk, JsonLineDecoder.new, splitLines, processLines]

/-- The streaming pipeline over any chunk sequence equals decoding the
concatenated bytes as a single chunk. -/
theorem decodeChunks_eq_decodeAll {R : Type} (parse : List Nat → Option R)
    (pj : List Nat → Option ApiError) (pse : Bool) (chunks : List (List Nat)) :
    decodeChunks parse pj pse chunks = decodeAll parse pj pse chunks.flatten := by
  cases chunks with
  | nil => simp [decodeChunks, decodeAll, feedChunk_new_nil]
  | cons c cs =>
    simp only [decodeChunks, decodeAll, List.foldl_cons, List.flatten_cons]
    rw [foldl_feedChunk_flatten]

/-- Feeding a chunk preserves the property that every produced record is the
successful parse of some span. -/
theorem feedChunk_sound {R : Type} (parse : List Nat → Option R)
    (d : JsonLineDecoder R) (c : List Nat)
    (h : ∀ r ∈ d.recs, ∃ s, parse s = some r) :
    ∀ r ∈ (feedChunk parse d c).recs, ∃ s, parse s = some r := by
  cases herr : d.err with
  | some e => rw [feedChunk_err parse d c e herr]; exact h
  | none =>
    simp only [feedChunk, herr]
    intro r hr
    rcases List.mem_append.mp hr with hm | hm
    · exact h r hm
    · exact processLines_sound parse _ r hm

/-- Every record in the decoder state after any chunk sequence is the
successful parse of some span. -/
theorem foldl_feedChunk_sound {R : Type} (parse : List Nat → Option R)
    (chunks : List (List Nat)) :
    ∀ (d : JsonLineDecoder R), (∀ r ∈ d.recs, ∃ s, parse s = some r) →
      ∀ r ∈ (List.foldl (feedChunk parse) d chunks).recs, ∃ s, parse s = some r := by
  induction chunks with
  | nil => intro d h; exact h
  | cons c cs ih =>
    intro d h
    rw [List.foldl_cons]
    exact ih _ (feedChunk_sound parse d c h)

/-! ## Byte Stream Bridge lemmas -/

/-- `fill` preserves the cursor invariant: a chunk that is fully drained is
dropped to `notReady` within the same call, so a held chunk always has
unread bytes. -/
theorem fill_invB (r : StreamReader) (cap : Nat) (h : invB r = true) :
    invB (fill r cap).2 = true := by
  rcases r with ⟨st, src⟩
  cases st with
  | ready c off =>
    simp only [invB, decide_eq_true_eq] at h
    have hmin : min cap (c.length - off) ≤ c.length - off := Nat.min_le_right _ _
    simp only [fill, fillReady]
    split
    · rfl
    · rename_i hne
      simp only [invB, decide_eq_true_eq]
      omega
  | notReady =>
    cases src with
    | nil => rfl
    | cons c rest =>
      have hmin : min cap (c.length - 0) ≤ c.length - 0 := Nat.min_le_right _ _
      simp only [fill, fillReady]
      split
      · rfl
      · rename_i hne
        simp only [invB, decide_eq_true_eq]
        omega

/-- Conservation: each `fill` call copies out exactly a leading run of the
undelivered bytes — in order, exactly once, with no gaps or duplication. -/
theorem fill_conserve (r : StreamReader) (cap : Nat) :
    (fill r cap).1 ++ remaining (fill r cap).2 = remaining r := by
  rcases r with ⟨st, src⟩
  cases st with
  | ready c off =>
    have hmin : min cap (c.length - off) ≤ c.length - off := Nat.min_le_right _ _
    simp only [fill, fillReady]
    split
    · rename_i heq
      simp only [remaining, ReadState.pending, List.nil_append]
      have hn : min cap (c.length - off) = c.length - off := by omega
      rw [hn, List.take_of_length_le (by simp)]
    · rename_i hne
      simp only [remaining, ReadState.pending]
      rw [← List.append_assoc, ← List.drop_drop, List.take_append_drop]
  | notReady =>
    cases src with
    | nil => rfl
    | cons c rest =>
      have hmin : min cap (c.length - 0) ≤ c.length - 0 := Nat.min_le_right _ _
      simp only [fill, fillReady]
      split
      · rename_i heq
        simp only [remaining, ReadState.pending, List.nil_append, List.flatten_cons,
          List.drop_zero]
        have hn : min cap (c.length - 0) = c.length := by omega
        rw [hn, List.take_length]
      · rename_i hne
        simp only [remaining, ReadState.pending, List.nil_append, List.flatten_cons,
          List.drop_zero, Nat.zero_add]
        rw [← List.append_assoc, List.take_append_drop]

/-- Conservation over any sequence of `fill` calls. -/
theorem fills_conserve (caps : List Nat) :
    ∀ r : StreamReader,
      (fills r caps).1.flatten ++ remaining (fills r caps).2 = remaining r := by
  induction caps with
  | nil => intro r; simp [fills]
  | cons cap caps ih =>
    intro r
    simp only [fills, List.flatten_cons, List.append_assoc]
    rw [ih, fill_conserve]

/-- The cursor invariant is preserved over any sequence of `fill` calls. -/
theorem fills_invB (caps : List Nat) :
    ∀ r : StreamReader, invB r = true → invB (fills r caps).2 = true := by
  induction caps with
  | nil => intro r h; exact h
  | cons cap caps ih => intro r h; exact ih _ (fill_invB r cap h)

/-- A `fill` call with a positive capacity makes progress whenever anything
is left: it strictly decreases the drain measure. -/
theorem fill_progress (r : StreamReader) (cap : Nat) (hinv : invB r = true)
    (hcap : 1 ≤ cap) (hpos : 0 < srMeasure r) :
    srMeasure (fill r cap).2 < srMeasure r := by
  rcases r with ⟨st, src⟩
  cases st with
  | ready c off =>
    simp only [invB, decide_eq_true_eq] at hinv
    have hmin : min cap (c.length - off) ≤ c.length - off := Nat.min_le_right _ _
    have hmin1 : 1 ≤ min cap (c.length - off) := Nat.le_min.mpr ⟨hcap, by omega⟩
    simp only [fill, fillReady]
    split <;>
      simp only [srMeasure, remaining, ReadState.pending, List.length_append,
        List.length_drop, List.nil_append, List.length_nil] <;> omega
  | notReady =>
    cases src with
    | nil =>
      simp [srMeasure, remaining, ReadState.pending] at hpos
    | cons c rest =>
      have hmin : min cap (c.length - 0) ≤ c.length - 0 := Nat.min_le_right _ _
      simp only [fill, fillReady]
      split <;>
        simp only [srMeasure, remaining, ReadState.pending, List.flatten_cons,
          List.length_append, List.length_drop, List.nil_append, List.length_nil,
          List.length_cons] <;> omega

/-- Under the cursor invariant, a zero drain measure forces the terminal
reader: nothing held, nothing left to poll. -/
theorem srMeasure_zero (r : StreamReader) (hinv : invB r = true)
    (h : srMeasure r = 0) : r = ⟨ReadState.notReady, []⟩ := by
  rcases r with ⟨st, src⟩
  have hsrc : src = [] := by
    apply List.eq_nil_of_length_eq_zero
    simp only [srMeasure] at h
    omega
  subst hsrc
  cases st with
  | ready c off =>
    simp only [invB, decide_eq_true_eq] at hinv
    simp only [srMeasure, remaining, ReadState.pending, List.flatten_nil,
      List.append_nil, List.length_drop, List.length_nil] at h
    omega
  | notReady => rfl

/-- Enough positive-capacity `fill` calls drain the reader completely. -/
theorem fills_drain (caps : List Nat) :
    ∀ r : StreamReader, invB r = true → (∀ x ∈ caps, 1 ≤ x) →
      srMeasure r ≤ caps.length → remaining (fills r caps).2 = [] := by
  induction caps with
  | nil =>
    intro r _ _ hm
    apply List.eq_nil_of_length_eq_zero
    simp only [List.length_nil, Nat.le_zero] at hm
    simp only [fills, srMeasure] at *
    omega
  | cons cap caps ih =>
    intro r hinv hpos hm
    simp only [fills]
    by_cases h0 : srMeasure r = 0
    · have hr := srMeasure_zero r hinv h0
      subst hr
      have : fill ⟨ReadState.notReady, []⟩ cap = ([], ⟨ReadState.notReady, []⟩) := rfl
      rw [this]
      exact ih _ hinv (fun x hx => hpos x (List.mem_cons_of_mem _ hx)) (by simp [srMeasure, remaining, ReadState.pending])
    · have hlt := fill_progress r cap hinv (hpos cap (List.mem_cons_self _ _)) (Nat.pos_of_ne_zero h0)
      have hinv' := fill_invB r cap hinv
      apply ih _ hinv' (fun x hx => hpos x (List.mem_cons_of_mem _ hx))
      simp only [List.length_cons] at hm
      omega

/-! ## Claim theorems -/

/-- Claim C1: chunk-boundary independence of streaming decode — for every
byte sequence and every pair of ways of splitting it into chunks fed to the
Byte Stream Bridge, the record sequence produced by the Record Decoder
(records and terminal error alike) is identical. -/
theorem spec_c1_chunk_boundary_independence {R : Type} (parse : List Nat → Option R)
    (pj : List Nat → Option ApiError) (pse : Bool)
    (splitA splitB : List (List Nat)) (h : splitA.flatten = splitB.flatten) :
    decodeChunks parse pj pse splitA = decodeChunks parse pj pse splitB := by
  rw [decodeChunks_eq_decodeAll, decodeChunks_eq_decodeAll, h]

/-- Witness for C1: one giant chunk versus a three-way split of the same
bytes. -/
theorem spec_c1_witness :
    decodeChunks (fun l => some l) (fun _ => none) false [[97, 10, 98, 10]]
      = decodeChunks (fun l => some l) (fun _ => none) false [[97], [10, 98], [10]] :=
  spec_c1_chunk_boundary_independence _ _ _ _ _ (by decide)

/-- Claim C2: end-of-stream remainder policy — with a non-empty unterminated
final remainder and no mid-stream decode failure, a false Stream Error
Marker silently discards the remainder (sequence ends normally with the
fully delimited records); a true Marker instead parses the remainder as a
serialized API Error and surfaces it as the terminal error. -/
theorem spec_c2_eos_remainder_policy {R : Type} (parse : List Nat → Option R)
    (pj : List Nat → Option ApiError) (bytes : List Nat)
    (lines : List (List Nat)) (rem : List Nat) (recs : List R)
    (hsplit : splitLines bytes = (lines, rem))
    (hrem : rem ≠ [])
    (hok : processLines parse lines = (recs, none)) :
    decodeAll parse pj false bytes = (recs, none) ∧
    decodeAll parse pj true bytes = (recs, some (streamErrorOf pj rem)) ∧
    (∀ e, pj rem = some e →
      decodeAll parse pj true bytes = (recs, some (Error.api e))) := by
  have hstate : ∀ pse : Bool,
      feedChunk parse (JsonLineDecoder.new (R := R) pse) bytes = ⟨pse, rem, recs, none⟩ := by
    intro pse
    simp [feedChunk, JsonLineDecoder.new, hsplit, hok]
  have h2 : decodeAll parse pj true bytes = (recs, some (streamErrorOf pj rem)) := by
    simp [decodeAll, hstate, JsonLineDecoder.finish, hrem]
  refine ⟨?_, h2, ?_⟩
  · simp [decodeAll, hstate, JsonLineDecoder.finish, hrem]
  · intro e he
    rw [h2]
    simp [streamErrorOf, he]

/-- Witness for C2: `1\n2` (no trailing newline) with a parser accepting
only `1`; the remainder `2` is discarded without the marker and parsed as
the structured error with it. -/
theorem spec_c2_witness :
    decodeAll (fun l => if l = [49] then some 1 else none)
        (fun s => if s = [50] then some ⟨"boom", 0, "x"⟩ else none) false [49, 10, 50]
      = ([1], none) ∧
    decodeAll (fun l => if l = [49] then some 1 else none)
        (fun s => if s = [50] then some ⟨"boom", 0, "x"⟩ else none) true [49, 10, 50]
      = ([1], some (Error.api ⟨"boom", 0, "x"⟩)) := by
  have h := spec_c2_eos_remainder_policy (fun l => if l = [49] then some 1 else none)
    (fun s => if s = [50] then some ⟨"boom", 0, "x"⟩ else none) [49, 10, 50]
    [[49]] [50] [1] (by decide) (by decide) (by decide)
  exact ⟨h.1, h.2.2 _ (by decide)⟩

/-- Claim C3: API Error construction fallback order — the structured shape
is attempted first; only on its failure is UTF-8 text attempted; only on
UTF-8 failure is the byte-decoding error surfaced. -/
theorem spec_c3_error_fallback_order (pj : List Nat → Option ApiError)
    (body : List Nat) :
    (∀ e, pj body = some e → build_error_from_body pj body = Error.api e) ∧
    (pj body = none → ∀ s, utf8ToString body = some s →
      build_error_from_body pj body = Error.uncategorized s) ∧
    (pj body = none → utf8ToString body = none →
      build_error_from_body pj body = Error.utf8 body) := by
  refine ⟨fun e he => ?_, fun hn s hs => ?_, fun hn hu => ?_⟩ <;>
    simp [build_error_from_body, *]

/-- Witness for C3: a body that is not the structured shape but is valid
UTF-8 becomes a freeform error with exactly that text; an invalid UTF-8 byte
falls through to the byte-decoding failure. -/
theorem spec_c3_witness :
    build_error_from_body (fun _ => none)
        [112, 108, 97, 105, 110, 32, 102, 97, 105, 108, 117, 114, 101, 32, 116, 101, 120, 116]
      = Error.uncategorized "plain failure text" ∧
    build_error_from_body (fun _ => none) [255] = Error.utf8 [255] := by
  constructor
  · exact (spec_c3_error_fallback_order (fun _ => none) _).2.1 rfl _ (by decide)
  · exact (spec_c3_error_fallback_order (fun _ => none) [255]).2.2 rfl (by decide)

/-- Claim C4: one-shot JSON response classification — exactly on status 200
the body is parsed as the declared success payload, whose parse failure is a
decode error and never an API error; on any other status the result is the
fallback-chain API Error. -/
theorem spec_c4_json_response_classification {Res : Type} (ps : List Nat → Option Res)
    (pj : List Nat → Option ApiError) (status : Nat) (chunk : List Nat) :
    (status = 200 → ∀ v, ps chunk = some v →
      process_json_response ps pj status chunk = Except.ok v) ∧
    (status = 200 → ps chunk = none →
      process_json_response ps pj status chunk = Except.error (Error.jsonDecode chunk) ∧
      ∀ e, process_json_response ps pj status chunk ≠ Except.error (Error.api e)) ∧
    (status ≠ 200 →
      process_json_response ps pj status chunk
        = Except.error (build_error_from_body pj chunk)) := by
  refine ⟨fun hs v hv => ?_, fun hs hv => ⟨?_, fun e => ?_⟩, fun hs => ?_⟩ <;>
    simp [process_json_response, *]

/-- Witness for C4: status 200 parses the payload; status 500 with an
unstructured body yields the freeform API Error. -/
theorem spec_c4_witness :
    process_json_response (fun _ => some 7) (fun _ => none) 200 [] = Except.ok 7 ∧
    process_json_response (fun _ => some 7) (fun _ => none) 500 [120]
      = Except.error (Error.uncategorized "x") := by
  constructor
  · exact (spec_c4_json_response_classification (fun _ => some 7) (fun _ => none)
      200 []).1 rfl 7 rfl
  · have h := (spec_c4_json_response_classification (fun _ => some 7) (fun _ => none)
      500 [120]).2.2 (by decide)
    rw [h]
    exact congrArg Except.error (by decide)

/-- Claim C5: streaming non-success drain — a streaming request whose
response has a non-success status concatenates the entire body first, then
emits the single API Error built from it, and yields no success records. -/
theorem spec_c5_stream_nonsuccess_drain {Q R : Type}
    (pj : List Nat → Option ApiError) (built : Except Error Q)
    (transport : Q → HttpResponse)
    (process : HttpResponse → List R × Option Error)
    (r : Q) (hb : built = Except.ok r) (hs : (transport r).status ≠ 200) :
    request_stream pj built transport process
      = (([], some (build_error_from_body pj (transport r).body.flatten)), true) := by
  subst hb
  simp [request_stream, hs]

/-- Witness for C5: a 500 response with body chunks `f`, `o` yields zero
records and one error built from the drained body `fo`. -/
theorem spec_c5_witness :
    request_stream (Q := Unit) (R := Nat) (fun _ => none) (Except.ok ())
        (fun _ => ⟨500, none, [[102], [111]]⟩) (fun _ => ([], none))
      = (([], some (Error.uncategorized "fo")), true) := by
  have h := spec_c5_stream_nonsuccess_drain (Q := Unit) (R := Nat) (fun _ => none)
    (Except.ok ()) (fun _ => ⟨500, none, [[102], [111]]⟩) (fun _ => ([], none)) ()
    rfl (by decide)
  rw [h]
  decide

/-- Claim C6: trailer-driven stream-error detection — the Stream Error
Marker is true exactly when the trailer-advertisement header is present and
equal to the recognized sentinel; it is computed once from the response
before decoding and fixed for the whole decode of that response. -/
theorem spec_c6_trailer_marker {Q R : Type} (parse : List Nat → Option R)
    (pj : List Nat → Option ApiError) (built : Except Error Q)
    (transport : Q → HttpResponse) (hdr : Option String) :
    (parse_stream_error hdr = true ↔ hdr = some streamErrorSentinel) ∧
    (∀ r, built = Except.ok r → (transport r).status = 200 →
      request_stream_json parse pj built transport
        = (decodeChunks parse pj (parse_stream_error (transport r).trailerHeader)
            (transport r).body, true)) := by
  constructor
  · cases hdr with
    | none => simp [parse_stream_error]
    | some v =>
      by_cases hv : v = streamErrorSentinel <;>
        simp [parse_stream_error, parseTrailerValue, hv]
  · intro r hb hs
    subst hb
    simp [request_stream_json, request_stream, hs]

/-- Witness for C6: the sentinel header value sets the marker, and a 200
streaming response decodes its body under the marker computed from its
header. -/
theorem spec_c6_witness :
    parse_stream_error (some "X-Stream-Error") = true ∧
    request_stream_json (Q := Unit) (R := List Nat) (fun l => some l) (fun _ => none)
        (Except.ok ()) (fun _ => ⟨200, some "X-Stream-Error", [[49, 10]]⟩)
      = (decodeChunks (fun l => some l) (fun _ => none)
          (parse_stream_error (some "X-Stream-Error")) [[49, 10]], true) := by
  constructor
  · exact (spec_c6_trailer_marker (Q := Unit) (R := List Nat) (fun l => some l)
      (fun _ => none) (Except.ok ())
      (fun _ => ⟨200, some "X-Stream-Error", [[49, 10]]⟩)
      (some "X-Stream-Error")).1.mpr rfl
  · exact (spec_c6_trailer_marker (Q := Unit) (R := List Nat) (fun l => some l)
      (fun _ => none) (Except.ok ())
      (fun _ => ⟨200, some "X-Stream-Error", [[49, 10]]⟩)
      (some "X-Stream-Error")).2 () rfl rfl

/-- Claim C7: decode errors are terminal with a valid record run before
them — once a delimited span fails to parse, the sequence is exactly the
records produced before the failure followed by that single decode error,
feeding further bytes changes nothing, and every produced record is the
successful parse of some span. -/
theorem spec_c7_decode_error_terminal {R : Type} (parse : List Nat → Option R)
    (pj : List Nat → Option ApiError) (pse : Bool)
    (chunks more : List (List Nat)) (e : Error)
    (herr : (List.foldl (feedChunk parse) (JsonLineDecoder.new pse) chunks).err = some e) :
    decodeChunks parse pj pse chunks
      = ((List.foldl (feedChunk parse) (JsonLineDecoder.new pse) chunks).recs, some e) ∧
    decodeChunks parse pj pse (chunks ++ more)
      = ((List.foldl (feedChunk parse) (JsonLineDecoder.new pse) chunks).recs, some e) ∧
    (∀ r ∈ (List.foldl (feedChunk parse) (JsonLineDecoder.new pse) chunks).recs,
      ∃ s, parse s = some r) := by
  refine ⟨?_, ?_, ?_⟩
  · simp [decodeChunks, JsonLineDecoder.finish, herr]
  · simp only [decodeChunks, List.foldl_append]
    rw [foldl_feedChunk_err _ _ more e herr]
    simp [JsonLineDecoder.finish, herr]
  · exact foldl_feedChunk_sound parse chunks _ (by simp [JsonLineDecoder.new])

/-- Witness for C7: the span `2` fails to parse; the sequence is the record
from `1`, then the terminal decode error, unchanged by a further chunk. -/
theorem spec_c7_witness :
    decodeChunks (fun l => if l = [49] then some 1 else none) (fun _ => none) false
        ([[49, 10, 50, 10]] ++ [[51, 10]])
      = ([1], some (Error.jsonDecode [50])) := by
  have h := spec_c7_decode_error_terminal (fun l => if l = [49] then some 1 else none)
    (fun _ => none) false [[49, 10, 50, 10]] [[51, 10]] (Error.jsonDecode [50]) (by decide)
  rw [h.2.1]
  decide

/-- Claim C8: Byte Stream Bridge cursor invariant and exactly-once delivery —
a fresh reader satisfies the invariant, `fill` preserves it (a drained chunk
drops to `notReady` in the same call and is never re-offered), each call
copies a leading run of the undelivered bytes with no loss or duplication,
and enough positive-capacity calls return exactly all bytes in order. -/
theorem spec_c8_bridge_cursor_invariant (chunks : List (List Nat))
    (r : StreamReader) (cap : Nat) (caps : List Nat) (hinv : invB r = true) :
    invB (StreamReader.new chunks) = true ∧
    invB (fill r cap).2 = true ∧
    (fill r cap).1 ++ remaining (fill r cap).2 = remaining r ∧
    (fills r caps).1.flatten ++ remaining (fills r caps).2 = remaining r ∧
    ((∀ x ∈ caps, 1 ≤ x) → srMeasure r ≤ caps.length →
      (fills r caps).1.flatten = remaining r) := by
  refine ⟨rfl, fill_invB r cap hinv, fill_conserve r cap, fills_conserve caps r, ?_⟩
  intro hpos hm
  have hc := fills_conserve caps r
  rw [fills_drain caps r hinv hpos hm, List.append_nil] at hc
  exact hc

/-- Witness for C8: a held three-byte chunk read through capacity-2 buffers
comes back in order, summing to the whole chunk. -/
theorem spec_c8_witness :
    (fills ⟨ReadState.ready [1, 2, 3] 0, []⟩ [2, 2, 2]).1.flatten
      = remaining ⟨ReadState.ready [1, 2, 3] 0, []⟩ := by
  have h := spec_c8_bridge_cursor_invariant [] ⟨ReadState.ready [1, 2, 3] 0, []⟩ 1
    [2, 2, 2] (by decide)
  exact h.2.2.2.2 (by decide) (by decide)

/-- Claim C9: request URL construction — the base URI for host `h` and port
`p` is exactly `http://h:p/api/v0`, the default client uses
`localhost:5001`, and a dispatched request URL is exactly
`base ++ path ++ "?" ++ query`. -/
theorem spec_c9_request_url (h : String) (p : Nat) (path query : String) :
    build_base_path h p = "http://" ++ h ++ ":" ++ toString p ++ "/api/v0" ∧
    defaultHost = "localhost" ∧
    defaultPort = 5001 ∧
    defaultBase = "http://localhost:5001/api/v0" ∧
    build_request_url (build_base_path h p) path query
      = "http://" ++ h ++ ":" ++ toString p ++ "/api/v0" ++ path ++ "?" ++ query :=
  ⟨rfl, rfl, rfl, by decide, rfl⟩

/-- Claim C10: request-construction failure short-circuits — when building
the request failed with error `e`, the one-shot path resolves to exactly
`e`, the streaming path is exactly one terminal `e` with zero records, and
neither path issues an HTTP request to the transport. -/
theorem spec_c10_build_failure_short_circuit {Q R : Type}
    (pj : List Nat → Option ApiError) (built : Except Error Q)
    (transport : Q → HttpResponse)
    (process : HttpResponse → List R × Option Error) (e : Error)
    (hb : built = Except.error e) :
    request_raw built transport = (Except.error e, false) ∧
    request_stream pj built transport process = (([], some e), false) := by
  subst hb
  exact ⟨rfl, rfl⟩

/-- Witness for C10: a failed build with a uri error short-circuits both
paths without touching the transport. -/
theorem spec_c10_witness :
    request_raw (Q := Unit) (Except.error (Error.uri "bad"))
        (fun _ => ⟨200, none, []⟩) = (Except.error (Error.uri "bad"), false) ∧
    request_stream (Q := Unit) (R := Nat) (fun _ => none)
        (Except.error (Error.uri "bad")) (fun _ => ⟨200, none, []⟩)
        (fun _ => ([], none))
      = (([], some (Error.uri "bad")), false) :=
  spec_c10_build_failure_short_circuit (fun _ => none) _ (fun _ => ⟨200, none, []⟩)
    (fun _ => ([], none)) (Error.uri "bad") rfl

end IpfsApi
